import Mathlib

/-!
# Verification of the OpenRouter flows app security and delivery core

Shallow embedding of the app's source (`lib/retry.ts`, `lib/security.ts`,
`blocks/tool.ts`, `blocks/generate.ts`, `main.ts`) together with the pieces
of the JavaScript runtime the source leans on: `String.prototype.includes`,
`parseInt`, number-to-string conversion, and node's
`createHmac("sha256", ...)` (HMAC-SHA-256 per FIPS 198-1 / FIPS 180-4 over
the UTF-8 bytes of its string arguments).

Theorems at the bottom settle the frozen claims about the spec.
-/

namespace OpenRouterApp

/-! ## JavaScript string primitives -/

/-- Whether `pat` occurs at the head of `l` (helper for substring search). -/
def startsWithSeq [DecidableEq α] : List α → List α → Bool
  | _, [] => true
  | [], _ :: _ => false
  | a :: l, b :: p => a = b && startsWithSeq l p

/-- Whether `pat` occurs contiguously anywhere in `l`. -/
def containsSeq [DecidableEq α] : List α → List α → Bool
  | [], pat => startsWithSeq ([] : List α) pat
  | l@(_ :: l'), pat => startsWithSeq l pat || containsSeq l' pat

/-- Model of JavaScript `String.prototype.includes` (substring containment).
The source uses it only on ASCII data, where code-unit and code-point
containment coincide. -/
def strIncludes (s pat : String) : Bool := containsSeq s.data pat.data

/-- The decimal digit characters (model of JS number formatting). -/
def digitChar : Nat → Char
  | 0 => '0' | 1 => '1' | 2 => '2' | 3 => '3' | 4 => '4'
  | 5 => '5' | 6 => '6' | 7 => '7' | 8 => '8' | _ => '9'

/-- Most-significant-first decimal digits, recursion on a fuel bound
(structural, so that the kernel can evaluate it). -/
def natDigitsF : Nat → Nat → List Char
  | 0, n => [digitChar n]
  | fuel + 1, n =>
    if n < 10 then [digitChar n]
    else natDigitsF fuel (n / 10) ++ [digitChar (n % 10)]

/-- Most-significant-first decimal digits of a natural number. -/
def natDigits (n : Nat) : List Char := natDigitsF n n

/-- Model of JavaScript `Number.prototype.toString()` for nonnegative
integers (the only use in the source: `timestamp.toString()` on
`Math.floor(Date.now()/1000)`). -/
def natToString (n : Nat) : String := String.mk (natDigits n)

/-- Numeric value of a character as a digit, if any (JS `parseInt` accepts
`0-9`, `a-z`, `A-Z` subject to the radix). -/
def charVal (c : Char) : Option Nat :=
  if '0' ≤ c ∧ c ≤ '9' then some (c.toNat - '0'.toNat)
  else if 'a' ≤ c ∧ c ≤ 'z' then some (c.toNat - 'a'.toNat + 10)
  else if 'A' ≤ c ∧ c ≤ 'Z' then some (c.toNat - 'A'.toNat + 10)
  else none

/-- Digit value of `c` in the given radix, if valid. -/
def digitValue (radix : Nat) (c : Char) : Option Nat :=
  match charVal c with
  | some d => if d < radix then some d else none
  | none => none

/-- Consume the maximal digit prefix, returning accumulated value and the
number of digits consumed. -/
def parseDigits (radix : Nat) : List Char → Nat → Nat → Nat × Nat
  | [], acc, cnt => (acc, cnt)
  | c :: rest, acc, cnt =>
    match digitValue radix c with
    | some d => parseDigits radix rest (acc * radix + d) (cnt + 1)
    | none => (acc, cnt)

/-- JS whitespace characters skipped by `parseInt` (the common ones). -/
def jsWhitespace (c : Char) : Bool :=
  c = ' ' || c = '\t' || c = '\n' || c = '\r' || c = '\x0b' || c = '\x0c'

/-- Model of JavaScript `parseInt(s)` with no radix argument: skip leading
whitespace, optional sign, hexadecimal if the digits start with `0x`/`0X`,
then the maximal digit prefix; `none` models `NaN` (no digits consumed). -/
def parseIntJs (s : String) : Option Int :=
  let l := s.data.dropWhile jsWhitespace
  let sign : Int := if l.headD ' ' = '-' then -1 else 1
  let l1 := if l.headD ' ' = '-' || l.headD ' ' = '+' then l.tail else l
  let isHex := l1.headD ' ' = '0' && (l1.tail.headD ' ' = 'x' || l1.tail.headD ' ' = 'X')
  let l2 := if isHex then l1.tail.tail else l1
  let radix := if isHex then 16 else 10
  let vc := parseDigits radix l2 0 0
  if vc.2 = 0 then none else some (sign * vc.1)

/-! ## UTF-8 encoding (how node's `crypto` consumes JS string arguments) -/

/-- UTF-8 bytes of a single code point. -/
def utf8CharBytes (c : Nat) : List Nat :=
  if c < 0x80 then [c]
  else if c < 0x800 then [0xC0 + c / 64, 0x80 + c % 64]
  else if c < 0x10000 then [0xE0 + c / 4096, 0x80 + c / 64 % 64, 0x80 + c % 64]
  else [0xF0 + c / 262144, 0x80 + c / 4096 % 64, 0x80 + c / 64 % 64, 0x80 + c % 64]

/-- UTF-8 bytes of a string. -/
def strBytes (s : String) : List Nat :=
  (s.data.map (fun c => utf8CharBytes c.toNat)).flatten

/-! ## SHA-256 (FIPS 180-4) and HMAC (FIPS 198-1)

Model of node `crypto`'s `createHmac("sha256", key).update(data).digest("hex")`
as used by `lib/security.ts` and `blocks/tool.ts`. Words are `Nat`s reduced
mod `2^32`. -/

/-- Truncate to a 32-bit word. -/
def w32 (x : Nat) : Nat := x % 4294967296

/-- Right-rotation of a 32-bit word (arithmetic formulation). -/
def rotr32 (x n : Nat) : Nat := x / 2 ^ n + x % 2 ^ n * 2 ^ (32 - n)

/-- SHA-256 Σ₀. -/
def bigSigma0 (x : Nat) : Nat := (rotr32 x 2) ^^^ (rotr32 x 13) ^^^ (rotr32 x 22)

/-- SHA-256 Σ₁. -/
def bigSigma1 (x : Nat) : Nat := (rotr32 x 6) ^^^ (rotr32 x 11) ^^^ (rotr32 x 25)

/-- SHA-256 σ₀. -/
def smallSigma0 (x : Nat) : Nat := (rotr32 x 7) ^^^ (rotr32 x 18) ^^^ (x / 2 ^ 3)

/-- SHA-256 σ₁. -/
def smallSigma1 (x : Nat) : Nat := (rotr32 x 17) ^^^ (rotr32 x 19) ^^^ (x / 2 ^ 10)

/-- SHA-256 Ch. -/
def chF (e f g : Nat) : Nat := (e &&& f) ^^^ ((e ^^^ 0xFFFFFFFF) &&& g)

/-- SHA-256 Maj. -/
def majF (a b c : Nat) : Nat := (a &&& b) ^^^ (a &&& c) ^^^ (b &&& c)

/-- Eight 32-bit working/state words of SHA-256. -/
structure Hash8 where
  a : Nat
  b : Nat
  c : Nat
  d : Nat
  e : Nat
  f : Nat
  g : Nat
  h : Nat
deriving DecidableEq, Repr

/-- SHA-256 initial hash value (FIPS 180-4 §5.3.3, written in decimal). -/
def initH : Hash8 :=
  ⟨1779033703, 3144134277, 1013904242, 2773480762,
   1359893119, 2600822924, 528734635, 1541459225⟩

/-- The 64 SHA-256 round constants (FIPS 180-4 §4.2.2, written in decimal). -/
def K256 : List Nat :=
  [1116352408, 1899447441, 3049323471, 3921009573, 961987163,
   1508970993, 2453635748, 2870763221, 3624381080, 310598401,
   607225278, 1426881987, 1925078388, 2162078206, 2614888103,
   3248222580, 3835390401, 4022224774, 264347078, 604807628,
   770255983, 1249150122, 1555081692, 1996064986, 2554220882,
   2821834349, 2952996808, 3210313671, 3336571891, 3584528711,
   113926993, 338241895, 666307205, 773529912, 1294757372,
   1396182291, 1695183700, 1986661051, 2177026350, 2456956037,
   2730485921, 2820302411, 3259730800, 3345764771, 3516065817,
   3600352804, 4094571909, 275423344, 430227734, 506948616,
   659060556, 883997877, 958139571, 1322822218, 1537002063,
   1747873779, 1955562222, 2024104815, 2227730452, 2361852424,
   2428436474, 2756734187, 3204031479, 3329325298]

/-- One round of the SHA-256 compression function; `kw` is the pair of the
round constant and the schedule word. -/
def shaRound (s : Hash8) (kw : Nat × Nat) : Hash8 :=
  let t1 := w32 (s.h + bigSigma1 s.e + chF s.e s.f s.g + kw.1 + kw.2)
  let t2 := w32 (bigSigma0 s.a + majF s.a s.b s.c)
  ⟨w32 (t1 + t2), s.a, s.b, s.c, w32 (s.d + t1), s.e, s.f, s.g⟩

/-- Next message-schedule word from the current schedule. -/
def schedNext (w : List Nat) : Nat :=
  let n := w.length
  w32 (smallSigma1 (w.getD (n - 2) 0) + w.getD (n - 7) 0 +
       smallSigma0 (w.getD (n - 15) 0) + w.getD (n - 16) 0)

/-- Extend the 16 block words to the 64 schedule words. -/
def extendSchedule (w : List Nat) : List Nat :=
  (List.range 48).foldl (fun acc _ => acc ++ [schedNext acc]) w

/-- Chunking worker, structurally recursive on a fuel bound. -/
def chunksF (k : Nat) : Nat → List α → List (List α)
  | _, [] => []
  | 0, _ :: _ => []
  | fuel + 1, x :: xs => (x :: xs.take k) :: chunksF k fuel (xs.drop k)

/-- Split a list into chunks of `k + 1` elements (last one possibly short). -/
def chunksAux (k : Nat) (l : List α) : List (List α) := chunksF k l.length l

/-- Big-endian 32-bit word from four bytes. -/
def wordOf4 : List Nat → Nat
  | [b0, b1, b2, b3] => b0 * 16777216 + b1 * 65536 + b2 * 256 + b3
  | _ => 0

/-- The 16 big-endian words of a 64-byte block. -/
def blockWords (block : List Nat) : List Nat := (chunksAux 3 block).map wordOf4

/-- SHA-256 compression of one 64-byte block into the running hash. -/
def compressBlock (H : Hash8) (block : List Nat) : Hash8 :=
  let s := (K256.zip (extendSchedule (blockWords block))).foldl shaRound H
  ⟨w32 (H.a + s.a), w32 (H.b + s.b), w32 (H.c + s.c), w32 (H.d + s.d),
   w32 (H.e + s.e), w32 (H.f + s.f), w32 (H.g + s.g), w32 (H.h + s.h)⟩

/-- Big-endian bytes of a 32-bit word. -/
def toBytes4 (x : Nat) : List Nat :=
  [x / 16777216 % 256, x / 65536 % 256, x / 256 % 256, x % 256]

/-- Big-endian bytes of a 64-bit length field. -/
def toBytes8 (x : Nat) : List Nat :=
  [x / 2 ^ 56 % 256, x / 2 ^ 48 % 256, x / 2 ^ 40 % 256, x / 2 ^ 32 % 256,
   x / 2 ^ 24 % 256, x / 2 ^ 16 % 256, x / 2 ^ 8 % 256, x % 256]

/-- The 32 digest bytes of a final hash state. -/
def hashBytes (H : Hash8) : List Nat :=
  toBytes4 H.a ++ toBytes4 H.b ++ toBytes4 H.c ++ toBytes4 H.d ++
  toBytes4 H.e ++ toBytes4 H.f ++ toBytes4 H.g ++ toBytes4 H.h

/-- SHA-256 padding: `0x80`, zeros to 56 mod 64, the 64-bit bit length. -/
def padMessage (msg : List Nat) : List Nat :=
  msg ++ [0x80] ++ List.replicate ((64 - (msg.length + 9) % 64) % 64) 0 ++
    toBytes8 (8 * msg.length)

/-- SHA-256 of a byte list, as 32 digest bytes. -/
def sha256 (msg : List Nat) : List Nat :=
  hashBytes ((chunksAux 63 (padMessage msg)).foldl compressBlock initH)

/-- HMAC-SHA-256 of a byte-list key and message (block size 64). -/
def hmacSha256 (key msg : List Nat) : List Nat :=
  let k0 := if 64 < key.length then sha256 key else key
  let k := k0 ++ List.replicate (64 - k0.length) 0
  sha256 ((k.map (fun b => b ^^^ 0x5C)) ++
          sha256 ((k.map (fun b => b ^^^ 0x36)) ++ msg))

/-- The lowercase hexadecimal digit characters. -/
def hexDigitChar : Nat → Char
  | 0 => '0' | 1 => '1' | 2 => '2' | 3 => '3' | 4 => '4' | 5 => '5'
  | 6 => '6' | 7 => '7' | 8 => '8' | 9 => '9' | 10 => 'a' | 11 => 'b'
  | 12 => 'c' | 13 => 'd' | 14 => 'e' | _ => 'f'

/-- Two hex characters of a byte. -/
def byteToHex (b : Nat) : List Char := [hexDigitChar (b / 16), hexDigitChar (b % 16)]

/-- Lowercase hex encoding of a byte list, as a string. -/
def hexEncode (bs : List Nat) : String := String.mk ((bs.map byteToHex).flatten)

/-- Model of `createHmac("sha256", key).update(data).digest("hex")` on JS
strings: HMAC-SHA-256 over UTF-8 bytes, hex-encoded. -/
def hmacSha256Hex (key data : String) : String :=
  hexEncode (hmacSha256 (strBytes key) (strBytes data))

/-! ## JS truthiness -/

/-- JS truthiness of a string: only the empty string is falsy. -/
def jsTruthy (s : String) : Bool := !(s == "")

/-- Truthiness of a possibly-absent string value (`undefined` and `""` are
both falsy). -/
def optTruthy (o : Option String) : Bool := jsTruthy (o.getD "")

/-! ## `lib/security.ts` -/

/-- `generateFlowSecret(blockId, appSecretKey)`: deterministic per-endpoint
secret, the hex HMAC-SHA-256 of the block id keyed by the app secret. -/
def generateFlowSecret (blockId : String) (appSecretKey : String) : String :=
  hmacSha256Hex appSecretKey blockId

/-- `signRequest(body, timestamp, flowSecret)`: hex HMAC-SHA-256 of
`body + timestamp.toString()` keyed by the flow secret. -/
def signRequest (body : String) (timestamp : Nat) (flowSecret : String) : String :=
  hmacSha256Hex flowSecret (body ++ natToString timestamp)

/-! ## `lib/retry.ts` -/

/-- The options record of `withRetry`, with the source's defaults. -/
structure RetryOptions where
  maxRetries : Nat := 3
  maxDelay : Nat := 5000
  pendingEventId : Option String := none
  operationName : String := "operation"
deriving DecidableEq, Repr

/-- The `shouldRetry` message classification (lines 35-42): an error is
retryable when its message contains `"HTTP 504"`, `"timeout"`,
`"ECONNRESET"`, or `"ENOTFOUND"`. -/
def isRetryableMsg (msg : String) : Bool :=
  strIncludes msg "HTTP 504" || strIncludes msg "timeout" ||
  strIncludes msg "ECONNRESET" || strIncludes msg "ENOTFOUND"

/-- Observable effects of one `withRetry` run, in order: `events.updatePending`
before attempt `n`, `operation()` invoked as attempt `n`, and the backoff
`setTimeout` sleep of `ms` milliseconds. -/
inductive REv
  | updatePending (attempt : Nat)
  | invoke (attempt : Nat)
  | sleep (ms : Nat)
deriving DecidableEq, Repr

/-- The `for (attempt = 1; attempt <= maxRetries; attempt++)` loop of
`withRetry`, structurally recursive on a fuel bound (always called with
enough fuel). `op n` is what `await operation()` does on attempt `n`
(success value or thrown `Error` message); `lastErr` threads
`lastError.message`. When the loop exhausts without returning, the source
wraps the last error (lines 54-56); that line is reached only when
`maxRetries < 1`, where the real code would fault on `lastError!` being
undefined. -/
def retryLoopF (op : Nat → Except String α) (o : RetryOptions) :
    Nat → String → Nat → List REv × Except String α
  | 0, lastErr, _ =>
    ([], .error (o.operationName ++ " failed after " ++
      natToString o.maxRetries ++ " attempts: " ++ lastErr))
  | fuel + 1, lastErr, attempt =>
    if o.maxRetries < attempt then
      ([], .error (o.operationName ++ " failed after " ++
        natToString o.maxRetries ++ " attempts: " ++ lastErr))
    else
      let pre := (if optTruthy o.pendingEventId && decide (1 < attempt) then
        [REv.updatePending attempt] else []) ++ [REv.invoke attempt]
      match op attempt with
      | .ok v => (pre, .ok v)
      | .error m =>
        if decide (attempt < o.maxRetries) && isRetryableMsg m then
          let d := min (1000 * 2 ^ (attempt - 1)) o.maxDelay
          let rest := retryLoopF op o fuel m (attempt + 1)
          (pre ++ REv.sleep d :: rest.1, rest.2)
        else (pre, .error m)

/-- `withRetry(operation, options)`: the full run, returning the effect
trace and the returned value or thrown error message. -/
def withRetry (op : Nat → Except String α) (o : RetryOptions) :
    List REv × Except String α :=
  retryLoopF op o (o.maxRetries + 1) "" 1

/-! ## `blocks/generate.ts` — tool invocation bridge -/

/-- JSON values, as produced by `response.json()`. Numeric values are
modeled as integers (float formatting plays no role in the claims). -/
inductive Json
  | null
  | bool (b : Bool)
  | num (n : Int)
  | str (s : String)
  | arr (elems : List Json)
  | obj (fields : List (String × Json))

/-- JS integer-to-string conversion for possibly negative values. -/
def intToString (n : Int) : String :=
  if n < 0 then "-" ++ natToString n.natAbs else natToString n.natAbs

/-- JSON escaping of one character (quote and backslash; the data in the
claims needs no control-character escapes). -/
def jsonEscapeChar (c : Char) : List Char :=
  if c = '"' then ['\\', '"'] else if c = '\\' then ['\\', '\\'] else [c]

/-- JSON escaping of a string body. -/
def jsonEscape (s : String) : String := String.mk ((s.data.map jsonEscapeChar).flatten)

mutual

/-- Model of `JSON.stringify` (no spacing, insertion-ordered keys). -/
def jsonStringify : Json → String
  | .null => "null"
  | .bool true => "true"
  | .bool false => "false"
  | .num n => intToString n
  | .str s => "\"" ++ jsonEscape s ++ "\""
  | .arr es => "[" ++ String.intercalate "," (jsonStringifyList es) ++ "]"
  | .obj fs => "\x7b" ++ String.intercalate "," (jsonStringifyFields fs) ++ "\x7d"

/-- Serializations of the elements of a JSON array. -/
def jsonStringifyList : List Json → List String
  | [] => []
  | j :: js => jsonStringify j :: jsonStringifyList js

/-- Serializations of the fields of a JSON object. -/
def jsonStringifyFields : List (String × Json) → List String
  | [] => []
  | (k, v) :: fs =>
    ("\"" ++ jsonEscape k ++ "\":" ++ jsonStringify v) :: jsonStringifyFields fs

end

/-- Field lookup in a parsed JSON object (the destructuring
`const { result } = await response.json()`; `none` models `undefined`). -/
def jsonLookup (fields : List (String × Json)) (key : String) : Option Json :=
  (fields.find? (fun kv => kv.1 == key)).map (fun kv => kv.2)

/-- An HTTP response as seen by the tool `execute` callback: status, status
text, and the JSON-parsed object body. -/
structure HttpResponse where
  status : Nat
  statusText : String
  bodyFields : List (String × Json)

/-- `response.ok`: status in the 200-299 range. -/
def responseOk (r : HttpResponse) : Bool :=
  decide (200 ≤ r.status) && decide (r.status ≤ 299)

/-- One inner operation of the tool `execute` callback (lines 272-297 of
`blocks/generate.ts`), given the fetched response: a non-ok response
becomes a thrown `HTTP <status>: <statusText>` error; otherwise the
`result` field is extracted from the JSON body and returned
JSON-serialized (`none` models `undefined` when the field is absent). -/
def toolCallOnce (r : HttpResponse) : Except String (Option String) :=
  if !(responseOk r) then
    .error ("HTTP " ++ natToString r.status ++ ": " ++ r.statusText)
  else
    .ok ((jsonLookup r.bodyFields "result").map jsonStringify)

/-- The signature the tool `execute` callback attaches (lines 275-276):
`signRequest(body, timestamp, generateFlowSecret(t.blockId, secretKey))`. -/
def signedToolRequestSig (body : String) (timestamp : Nat)
    (blockId secretKey : String) : String :=
  signRequest body timestamp (generateFlowSecret blockId secretKey)

/-! ## `blocks/tool.ts` — inbound verification gate -/

/-- Outcome of the Tool block's `http.onRequest`: an `http.respond` with a
status code and error body, or an `events.emit` admitting the payload to
the downstream collaborator (with the caller's event id as secondary
parent). `π` is the type of the tool parameters carried by the body. -/
inductive GateResult (π : Type)
  | respond (statusCode : Nat) (error : String)
  | emit (requestId : String) (parameters : π) (secondaryParentEventId : String)
deriving DecidableEq, Repr

/-- The freshness test (line 45): `Math.abs(now - parseInt(timestamp)) > 300`.
Comparisons with `NaN` are false in JS, so an unparseable timestamp never
trips this check. -/
def staleTimestamp (now : Int) (timestamp : String) : Bool :=
  match parseIntJs timestamp with
  | some t => decide (300 < (now - t).natAbs)
  | none => false

/-- `http.onRequest` of the Tool block (lines 13-73 of `blocks/tool.ts`).
`secret` is `app.signals.toolSecuritySecret`, `blockId` the block's own id,
`now` is `Math.floor(Date.now() / 1000)`, the three header arguments may be
absent, and `rawBody` is the raw request body used for signature
recomputation. `bodyEventId` and `parameters` are the fields destructured
from the parsed body on the success path. -/
def onRequest {π : Type} (secret : Option String) (blockId : String) (now : Int)
    (requestId : String) (bodyEventId : String) (parameters : π)
    (eventIdH timestampH signatureH : Option String) (rawBody : String) :
    GateResult π :=
  let secretKey := secret.getD ""
  if !(jsTruthy secretKey) then .respond 500 "App security secret not available"
  else
    let eventId := eventIdH.getD ""
    let timestamp := timestampH.getD ""
    let signature := signatureH.getD ""
    if !(jsTruthy eventId) || !(jsTruthy timestamp) || !(jsTruthy signature) then
      .respond 401 "Missing required security headers"
    else if staleTimestamp now timestamp then
      .respond 401 "Request timestamp too old"
    else
      let flowSecret := generateFlowSecret blockId secretKey
      let expectedSignature := hmacSha256Hex flowSecret (rawBody ++ timestamp)
      if signature != expectedSignature then
        .respond 401 "Invalid request signature"
      else .emit requestId parameters bodyEventId

/-! ## `main.ts` — application `onSync` -/

/-- The part of the sync result the claims are about: the new status and
the `toolSecuritySecret` signal update (`none` when the key is absent from
`signalUpdates`). -/
structure SyncResult where
  newStatus : String
  toolSecuritySecretUpdate : Option String
deriving DecidableEq, Repr

/-- `app.onSync` from `main.ts`. `existing` is the current
`app.signals.toolSecuritySecret`, `freshSecret` models the
`randomBytes(32).toString("hex")` draw, and `apiKeyOk` is `response.ok` of
the OpenRouter models request used to validate the API key. -/
def appOnSync (existing : Option String) (freshSecret : String)
    (apiKeyOk : Bool) : SyncResult :=
  let signalUpdates := if optTruthy existing then none else some freshSecret
  if apiKeyOk then ⟨"ready", signalUpdates⟩ else ⟨"failed", signalUpdates⟩

/-! ## Digest shape lemmas -/

/-- Flattening a map whose images all have length `k` yields `k * length`. -/
theorem length_flatten_map_const {α β : Type} (f : α → List β) (k : Nat)
    (hf : ∀ a, (f a).length = k) (l : List α) :
    ((l.map f).flatten).length = k * l.length := by
  induction l with
  | nil => simp
  | cons a l ih => simp [hf, ih, Nat.mul_succ]; omega

/-- A final hash state always serializes to 32 bytes. -/
theorem hashBytes_length (H : Hash8) : (hashBytes H).length = 32 := by
  simp [hashBytes, toBytes4]

/-- SHA-256 digests always have 32 bytes. -/
theorem sha256_length (msg : List Nat) : (sha256 msg).length = 32 := by
  simp [sha256, hashBytes_length]

/-- HMAC-SHA-256 digests always have 32 bytes. -/
theorem hmacSha256_length (key msg : List Nat) :
    (hmacSha256 key msg).length = 32 := by
  simp [hmacSha256, sha256_length]

/-- Hex encoding doubles the byte count. -/
theorem hexEncode_length (bs : List Nat) : (hexEncode bs).length = 2 * bs.length := by
  simpa [hexEncode, String.length] using
    length_flatten_map_const byteToHex 2 (fun _ => rfl) bs

/-- The hex HMAC of any key and data is a 64-character string. -/
theorem hmacSha256Hex_length (key data : String) :
    (hmacSha256Hex key data).length = 64 := by
  simp [hmacSha256Hex, hexEncode_length, hmacSha256_length]

/-- The hex HMAC is never the empty string, hence always JS-truthy. -/
theorem hmacSha256Hex_truthy (key data : String) :
    jsTruthy (hmacSha256Hex key data) = true := by
  have h := hmacSha256Hex_length key data
  show (!(hmacSha256Hex key data == "")) = true
  simp only [Bool.not_eq_true', beq_eq_false_iff_ne, ne_eq]
  intro he
  rw [he] at h
  simp [String.length] at h

/-! ## Claim C1 — retry exhaustion propagates the raw last error (code bug) -/

/-- Claim C1 (code bug): an operation failing with the retryable error
`"timeout"` on every attempt makes exactly `maxRetries = 3` attempts (with
the two backoff sleeps), and `withRetry` then propagates the raw last error
`"timeout"` unchanged — it does not raise the wrapping terminal error
`"operation failed after 3 attempts: timeout"` that the spec describes.
The wrapping `throw` after the loop in `lib/retry.ts` (lines 54-56) is
unreachable once `maxRetries ≥ 1`, because `shouldRetry` is false on the
final attempt and the raw `lastError` is rethrown (line 45). -/
theorem c1_exhaustion_propagates_raw_error :
    withRetry (fun _ => (Except.error "timeout" : Except String String)) {} =
      ([REv.invoke 1, REv.sleep 1000, REv.invoke 2, REv.sleep 2000, REv.invoke 3],
       Except.error "timeout") ∧
    "timeout" ≠ "operation failed after 3 attempts: timeout" := by
  exact ⟨rfl, by decide⟩

/-! ## Claim C9 — onSync writes the secret only when absent -/

/-- Claim C9: the application's `onSync` writes a fresh
`toolSecuritySecret` exactly when no secret is currently set (JS-falsy:
absent or empty), leaves an existing secret unchanged, and does so
identically whether the API-key validation succeeds (`ready`) or fails
(`failed`). -/
theorem c9_onSync_writes_secret_only_when_absent
    (existing : Option String) (freshSecret : String) (apiKeyOk : Bool) :
    (optTruthy existing = false →
      appOnSync existing freshSecret apiKeyOk =
        ⟨if apiKeyOk then "ready" else "failed", some freshSecret⟩) ∧
    (optTruthy existing = true →
      appOnSync existing freshSecret apiKeyOk =
        ⟨if apiKeyOk then "ready" else "failed", none⟩) := by
  unfold appOnSync
  cases apiKeyOk <;> cases h : optTruthy existing <;> simp [h]

/-- Witness for C9: concrete instantiations discharging the hypotheses. -/
theorem c9_onSync_writes_secret_only_when_absent_witness :
    (optTruthy none = false ∧
      appOnSync none "fresh" true = ⟨if true then "ready" else "failed", some "fresh"⟩) ∧
    (optTruthy (some "old") = true ∧
      appOnSync (some "old") "fresh" false = ⟨if false then "ready" else "failed", none⟩) :=
  ⟨⟨by decide, (c9_onSync_writes_secret_only_when_absent none "fresh" true).1 (by decide)⟩,
   ⟨by decide, (c9_onSync_writes_secret_only_when_absent (some "old") "fresh" false).2 (by decide)⟩⟩

/-! ## Claim C3 — the gate's four checks, in order, first failure winning -/

/-- Claim C3: the inbound gate evaluates exactly four rejection checks in
this fixed order, the first failure winning and short-circuiting the rest:
(1) application secret absent (JS-falsy) → 500; (2) any of the
event-id/timestamp/signature headers falsy → 401; (3) timestamp more than
300 seconds from the current time (per the parsed header) → 401;
(4) recomputed signature differs from the supplied one → 401; the payload
is emitted to the downstream collaborator exactly when all four pass. -/
theorem c3_gate_fixed_check_order {π : Type} (secret : Option String)
    (blockId : String) (now : Int) (requestId bodyEventId : String)
    (parameters : π) (eventIdH timestampH signatureH : Option String)
    (rawBody : String) (out : GateResult π)
    (hout : out = onRequest secret blockId now requestId bodyEventId parameters
      eventIdH timestampH signatureH rawBody) :
    (optTruthy secret = false → out = .respond 500 "App security secret not available") ∧
    (optTruthy secret = true →
      ¬(optTruthy eventIdH = true ∧ optTruthy timestampH = true ∧ optTruthy signatureH = true) →
      out = .respond 401 "Missing required security headers") ∧
    (optTruthy secret = true → optTruthy eventIdH = true → optTruthy timestampH = true →
      optTruthy signatureH = true → staleTimestamp now (timestampH.getD "") = true →
      out = .respond 401 "Request timestamp too old") ∧
    (optTruthy secret = true → optTruthy eventIdH = true → optTruthy timestampH = true →
      optTruthy signatureH = true → staleTimestamp now (timestampH.getD "") = false →
      signatureH.getD "" ≠ hmacSha256Hex (generateFlowSecret blockId (secret.getD ""))
        (rawBody ++ timestampH.getD "") →
      out = .respond 401 "Invalid request signature") ∧
    (out = .emit requestId parameters bodyEventId ↔
      optTruthy secret = true ∧ optTruthy eventIdH = true ∧ optTruthy timestampH = true ∧
      optTruthy signatureH = true ∧ staleTimestamp now (timestampH.getD "") = false ∧
      signatureH.getD "" = hmacSha256Hex (generateFlowSecret blockId (secret.getD ""))
        (rawBody ++ timestampH.getD "")) := by
  subst hout
  unfold onRequest optTruthy
  refine ⟨fun h1 => ?_, fun h1 h2 => ?_, fun h1 h2 h3 h4 h5 => ?_,
    fun h1 h2 h3 h4 h5 h6 => ?_, ?_⟩
  · simp [h1]
  · simp only [h1, Bool.not_true, Bool.false_eq_true, if_false]
    rcases Bool.eq_false_or_eq_true (jsTruthy (eventIdH.getD "")) with he | he <;>
      rcases Bool.eq_false_or_eq_true (jsTruthy (timestampH.getD "")) with ht | ht <;>
      rcases Bool.eq_false_or_eq_true (jsTruthy (signatureH.getD "")) with hg | hg <;>
      simp_all
  · simp [h1, h2, h3, h4, h5]
  · simp [h1, h2, h3, h4, h5, h6]
  · constructor
    · intro h
      rcases Bool.eq_false_or_eq_true (jsTruthy (secret.getD "")) with h1 | h1 <;>
        rcases Bool.eq_false_or_eq_true (jsTruthy (eventIdH.getD "")) with he | he <;>
        rcases Bool.eq_false_or_eq_true (jsTruthy (timestampH.getD "")) with ht | ht <;>
        rcases Bool.eq_false_or_eq_true (jsTruthy (signatureH.getD "")) with hg | hg <;>
        rcases Bool.eq_false_or_eq_true (staleTimestamp now (timestampH.getD "")) with hst | hst <;>
        simp_all
    · rintro ⟨h1, h2, h3, h4, h5, h6⟩
      simp [h1, h2, h3, h4, h5, h6, hmacSha256Hex_truthy]

/-- Witness for C3: a concrete request with a falsy secret is rejected 500
by the first check. -/
theorem c3_gate_fixed_check_order_witness :
    onRequest (π := Nat) none "blk" 0 "req" "be" 7 (some "e") (some "0") (some "x") "" =
      .respond 500 "App security secret not available" :=
  (c3_gate_fixed_check_order none "blk" 0 "req" "be" 7 (some "e") (some "0") (some "x") ""
    _ rfl).1 (by decide)

/-! ## Claim C6 — the freshness window is inclusive at 300 seconds -/

/-- Claim C6: with the secret available and all three headers present, a
request whose parsed timestamp differs from the current time by exactly
300 seconds (either direction) passes the freshness check — the gate can
then only answer with the signature verdict, never the staleness
rejection — while a difference of 301 seconds is rejected 401 as too old. -/
theorem c6_freshness_boundary_inclusive {π : Type} (secret : Option String)
    (blockId : String) (now : Int) (requestId bodyEventId : String)
    (parameters : π) (eventIdH timestampH signatureH : Option String)
    (rawBody : String) (t : Int)
    (hsec : optTruthy secret = true) (he : optTruthy eventIdH = true)
    (hts : optTruthy timestampH = true) (hsig : optTruthy signatureH = true)
    (hparse : parseIntJs (timestampH.getD "") = some t) :
    ((now - t).natAbs = 300 →
      staleTimestamp now (timestampH.getD "") = false ∧
      onRequest secret blockId now requestId bodyEventId parameters
          eventIdH timestampH signatureH rawBody ≠
        GateResult.respond 401 "Request timestamp too old") ∧
    ((now - t).natAbs = 301 →
      onRequest secret blockId now requestId bodyEventId parameters
          eventIdH timestampH signatureH rawBody =
        GateResult.respond 401 "Request timestamp too old") := by
  unfold optTruthy at hsec he hts hsig
  constructor
  · intro h300
    have hstale : staleTimestamp now (timestampH.getD "") = false := by
      simp [staleTimestamp, hparse, h300]
    refine ⟨hstale, ?_⟩
    unfold onRequest
    simp only [hsec, he, hts, hsig, hstale, Bool.not_true, Bool.false_or,
      Bool.or_self, if_false, Bool.false_eq_true]
    split <;> simp
  · intro h301
    have hstale : staleTimestamp now (timestampH.getD "") = true := by
      simp [staleTimestamp, hparse, h301]
    unfold onRequest
    simp [hsec, he, hts, hsig, hstale]

/-- Witness for C6: timestamp `1000` is exactly 300s old at `now = 1300`
(accepted past the freshness check) and 301s old at `now = 1301`
(rejected). -/
theorem c6_freshness_boundary_inclusive_witness :
    (staleTimestamp 1300 ((some "1000").getD "") = false ∧
      onRequest (π := Nat) (some "S") "blk" 1300 "req" "be" 7 (some "e")
          (some "1000") (some "x") "" ≠
        GateResult.respond 401 "Request timestamp too old") ∧
    onRequest (π := Nat) (some "S") "blk" 1301 "req" "be" 7 (some "e")
        (some "1000") (some "x") "" =
      GateResult.respond 401 "Request timestamp too old" :=
  ⟨(c6_freshness_boundary_inclusive (some "S") "blk" 1300 "req" "be" 7 (some "e")
      (some "1000") (some "x") "" 1000 (by decide) (by decide) (by decide)
      (by decide) (by decide)).1 (by decide),
   (c6_freshness_boundary_inclusive (some "S") "blk" 1301 "req" "be" 7 (some "e")
      (some "1000") (some "x") "" 1000 (by decide) (by decide) (by decide)
      (by decide) (by decide)).2 (by decide)⟩

/-! ## Claim C7 — rejection responses do reveal the failed check (corrected) -/

/-- Counterexample to claim C7: two caller-fault rejections share the
machine-readable status 401 yet carry different fixed messages that name
the failed check (`"Missing required security headers"` versus
`"Request timestamp too old"`), so rejections are not distinguishable
only by status with a generic non-revealing message. -/
theorem c7_counterexample :
    onRequest (π := Nat) (some "S") "blk" 0 "req" "be" 7 none none none "" =
      GateResult.respond 401 "Missing required security headers" ∧
    onRequest (π := Nat) (some "S") "blk" 1000 "req" "be" 7 (some "e")
        (some "0") (some "x") "" =
      GateResult.respond 401 "Request timestamp too old" ∧
    "Missing required security headers" ≠ "Request timestamp too old" :=
  ⟨by decide, by decide, by decide⟩

/-- Claim C7 as amended: every gate outcome is either the admission of the
payload or a rejection with machine-readable status 401 (caller fault) or
500 (configuration fault), whose body is one of four fixed short messages
identifying the failed check. -/
theorem c7_rejection_statuses_and_messages {π : Type} (secret : Option String)
    (blockId : String) (now : Int) (requestId bodyEventId : String)
    (parameters : π) (eventIdH timestampH signatureH : Option String)
    (rawBody : String) :
    onRequest secret blockId now requestId bodyEventId parameters
        eventIdH timestampH signatureH rawBody =
      GateResult.emit requestId parameters bodyEventId ∨
    onRequest secret blockId now requestId bodyEventId parameters
        eventIdH timestampH signatureH rawBody =
      GateResult.respond 500 "App security secret not available" ∨
    onRequest secret blockId now requestId bodyEventId parameters
        eventIdH timestampH signatureH rawBody =
      GateResult.respond 401 "Missing required security headers" ∨
    onRequest secret blockId now requestId bodyEventId parameters
        eventIdH timestampH signatureH rawBody =
      GateResult.respond 401 "Request timestamp too old" ∨
    onRequest secret blockId now requestId bodyEventId parameters
        eventIdH timestampH signatureH rawBody =
      GateResult.respond 401 "Invalid request signature" := by
  unfold onRequest
  dsimp only
  split_ifs <;> simp

/-! ## Claim C10 — unparseable timestamps skip the freshness check -/

/-- Claim C10: when the timestamp header is present (truthy) but
`parseInt` yields `NaN`, the freshness comparison is false (JS `NaN`
semantics), so the request is not rejected as stale and — the secret and
header checks having passed — the gate's outcome is decided by the
signature check alone. -/
theorem c10_nan_timestamp_skips_freshness {π : Type} (secret : Option String)
    (blockId : String) (now : Int) (requestId bodyEventId : String)
    (parameters : π) (eventIdH timestampH signatureH : Option String)
    (rawBody : String)
    (hsec : optTruthy secret = true) (he : optTruthy eventIdH = true)
    (hts : optTruthy timestampH = true) (hsig : optTruthy signatureH = true)
    (hparse : parseIntJs (timestampH.getD "") = none) :
    staleTimestamp now (timestampH.getD "") = false ∧
    onRequest secret blockId now requestId bodyEventId parameters
        eventIdH timestampH signatureH rawBody =
      (if (signatureH.getD "") != hmacSha256Hex
          (generateFlowSecret blockId (secret.getD ""))
          (rawBody ++ timestampH.getD "") then
        GateResult.respond 401 "Invalid request signature"
      else GateResult.emit requestId parameters bodyEventId) := by
  unfold optTruthy at hsec he hts hsig
  have hstale : staleTimestamp now (timestampH.getD "") = false := by
    simp [staleTimestamp, hparse]
  refine ⟨hstale, ?_⟩
  unfold onRequest
  simp [hsec, he, hts, hsig, hstale]

/-- Witness for C10: the unparseable timestamp header `"abc"` passes the
freshness check and leaves the outcome to the signature comparison. -/
theorem c10_nan_timestamp_skips_freshness_witness :
    staleTimestamp 123456 ((some "abc").getD "") = false ∧
    onRequest (π := Nat) (some "S") "blk" 123456 "req" "be" 7 (some "e")
        (some "abc") (some "x") "body" =
      (if ((some "x").getD "") != hmacSha256Hex
          (generateFlowSecret "blk" ((some "S").getD ""))
          ("body" ++ (some "abc").getD "") then
        GateResult.respond 401 "Invalid request signature"
      else GateResult.emit "req" 7 "be") :=
  c10_nan_timestamp_skips_freshness (some "S") "blk" 123456 "req" "be" 7
    (some "e") (some "abc") (some "x") "body" (by decide) (by decide)
    (by decide) (by decide) (by decide)

/-! ## Trace lemmas for the retry loop -/

/-- Membership of an `invoke` event in the per-iteration prefix. -/
theorem mem_invoke_pre (c : Bool) (a k : Nat) :
    (REv.invoke k ∈ (if c then [REv.updatePending a] else []) ++ [REv.invoke a]) ↔
      k = a := by
  cases c <;> simp [eq_comm]

/-- Membership of an `updatePending` event in the per-iteration prefix. -/
theorem mem_update_pre (c : Bool) (a k : Nat) :
    (REv.updatePending k ∈ (if c then [REv.updatePending a] else []) ++ [REv.invoke a]) ↔
      (c = true ∧ k = a) := by
  cases c <;> simp [eq_comm]

/-- Every attempt recorded in a retry trace lies between the starting
attempt number and `maxRetries`. -/
theorem invoke_mem_bounds (op : Nat → Except String α) (o : RetryOptions) :
    ∀ fuel lastErr attempt k,
      REv.invoke k ∈ (retryLoopF op o fuel lastErr attempt).1 →
      attempt ≤ k ∧ k ≤ o.maxRetries := by
  intro fuel
  induction fuel with
  | zero => intro le att k h; simp [retryLoopF] at h
  | succ fuel ih =>
    intro le att k h
    by_cases hg : o.maxRetries < att
    · simp [retryLoopF, hg] at h
    · simp only [retryLoopF, if_neg hg] at h
      cases hop : op att with
      | ok v =>
        simp only [hop] at h
        have := (mem_invoke_pre _ att k).mp h
        omega
      | error m =>
        simp only [hop] at h
        by_cases hr : (decide (att < o.maxRetries) && isRetryableMsg m) = true
        · simp only [hr, if_true] at h
          rw [List.mem_append] at h
          rcases h with h | h
          · have := (mem_invoke_pre _ att k).mp h
            omega
          · rcases List.mem_cons.mp h with h | h
            · exact absurd h (by simp)
            · have := ih m (att + 1) k h
              omega
        · simp only [hr, if_false, Bool.false_eq_true] at h
          have := (mem_invoke_pre _ att k).mp h
          omega

/-- Characterization of which attempts a retry run makes (given enough
fuel): attempt `k` is invoked exactly when it is in range and every
earlier attempt from the starting one failed retryably with retries
remaining. -/
theorem invoke_mem_iff (op : Nat → Except String α) (o : RetryOptions) :
    ∀ fuel lastErr attempt k, o.maxRetries < attempt + fuel →
      (REv.invoke k ∈ (retryLoopF op o fuel lastErr attempt).1 ↔
        (attempt ≤ k ∧ k ≤ o.maxRetries ∧
          ∀ j, attempt ≤ j → j < k →
            j < o.maxRetries ∧ ∃ m, op j = .error m ∧ isRetryableMsg m = true)) := by
  intro fuel
  induction fuel with
  | zero =>
    intro le att k hfuel
    simp only [retryLoopF, List.not_mem_nil, false_iff]
    intro h
    omega
  | succ fuel ih =>
    intro le att k hfuel
    by_cases hg : o.maxRetries < att
    · simp only [retryLoopF, if_pos hg, List.not_mem_nil, false_iff]
      intro h
      omega
    · simp only [retryLoopF, if_neg hg]
      cases hop : op att with
      | ok v =>
        rw [mem_invoke_pre _ att k]
        constructor
        · rintro rfl
          exact ⟨le_refl _, Nat.le_of_not_lt hg, fun j h1 h2 => absurd (by omega : True) (by omega)⟩
        · rintro ⟨h1, h2, h3⟩
          by_contra hne
          have hj := h3 att (le_refl _) (by omega)
          rcases hj.2 with ⟨m, hm, _⟩
          rw [hop] at hm
          exact Except.noConfusion hm
      | error m =>
        by_cases hr : (decide (att < o.maxRetries) && isRetryableMsg m) = true
        · simp only [hr, if_true, List.mem_append, mem_invoke_pre _ att k,
            List.mem_cons]
          have hretry : att < o.maxRetries ∧ isRetryableMsg m = true := by
            rcases Bool.and_eq_true_iff.mp hr with ⟨h1, h2⟩
            exact ⟨of_decide_eq_true h1, h2⟩
          rw [show (REv.invoke k = REv.sleep (min (1000 * 2 ^ (att - 1)) o.maxDelay)) ↔ False by simp]
          rw [ih m (att + 1) k (by omega)]
          constructor
          · rintro (rfl | ⟨hfalse⟩ | ⟨h1, h2, h3⟩)
            · exact ⟨le_refl _, Nat.le_of_not_lt hg, fun j ha hb => absurd (by omega : True) (by omega)⟩
            · exact hfalse.elim
            · refine ⟨by omega, h2, fun j ha hb => ?_⟩
              rcases Nat.lt_or_ge att j with haj | haj
              · exact h3 j (by omega) hb
              · have : j = att := by omega
                subst this
                exact ⟨hretry.1, m, hop, hretry.2⟩
          · rintro ⟨h1, h2, h3⟩
            rcases Nat.eq_or_lt_of_le h1 with rfl | hlt
            · exact Or.inl rfl
            · exact Or.inr (Or.inr ⟨by omega, h2, fun j ha hb => h3 j (by omega) hb⟩)
        · simp only [hr, if_false, Bool.false_eq_true, mem_invoke_pre _ att k]
          have hnr : ¬(att < o.maxRetries ∧ isRetryableMsg m = true) := by
            intro ⟨h1, h2⟩
            exact hr (by simp [h1, h2])
          constructor
          · rintro rfl
            exact ⟨le_refl _, Nat.le_of_not_lt hg, fun j ha hb => absurd (by omega : True) (by omega)⟩
          · rintro ⟨h1, h2, h3⟩
            by_contra hne
            have hj := h3 att (le_refl _) (by omega)
            rcases hj.2 with ⟨m', hm', hrm'⟩
            rw [hop] at hm'
            cases hm'
            exact hnr ⟨hj.1, hrm'⟩

/-- A pending-status update is recorded exactly before the attempts after
the first, and only when a pending event id is configured. -/
theorem update_mem_iff (op : Nat → Except String α) (o : RetryOptions) :
    ∀ fuel lastErr attempt k,
      (REv.updatePending k ∈ (retryLoopF op o fuel lastErr attempt).1 ↔
        (optTruthy o.pendingEventId = true ∧ 1 < k ∧
          REv.invoke k ∈ (retryLoopF op o fuel lastErr attempt).1)) := by
  intro fuel
  induction fuel with
  | zero => intro le att k; simp [retryLoopF]
  | succ fuel ih =>
    intro le att k
    by_cases hg : o.maxRetries < att
    · simp [retryLoopF, hg]
    · simp only [retryLoopF, if_neg hg]
      have hc : ((optTruthy o.pendingEventId && decide (1 < att)) = true) ↔
          (optTruthy o.pendingEventId = true ∧ 1 < att) := by
        rw [Bool.and_eq_true_iff, decide_eq_true_iff]
      cases hop : op att with
      | ok v =>
        simp only [hop]
        rw [mem_update_pre _ att k, mem_invoke_pre _ att k]
        constructor
        · rintro ⟨hca, rfl⟩
          rcases hc.mp hca with ⟨h1, h2⟩
          exact ⟨h1, h2, rfl⟩
        · rintro ⟨h1, h2, rfl⟩
          exact ⟨hc.mpr ⟨h1, h2⟩, rfl⟩
      | error m =>
        simp only [hop]
        by_cases hr : (decide (att < o.maxRetries) && isRetryableMsg m) = true
        · simp only [hr, if_true, List.mem_append, List.mem_cons,
            mem_update_pre _ att k, mem_invoke_pre _ att k]
          rw [show (REv.updatePending k = REv.sleep (min (1000 * 2 ^ (att - 1)) o.maxDelay)) ↔ False by simp,
            show (REv.invoke k = REv.sleep (min (1000 * 2 ^ (att - 1)) o.maxDelay)) ↔ False by simp,
            ih m (att + 1) k]
          constructor
          · rintro (⟨hca, rfl⟩ | hfalse | ⟨h1, h2, h3⟩)
            · rcases hc.mp hca with ⟨h1, h2⟩
              exact ⟨h1, h2, Or.inl rfl⟩
            · exact hfalse.elim
            · exact ⟨h1, h2, Or.inr (Or.inr h3)⟩
          · rintro ⟨h1, h2, rfl | hfalse | h3⟩
            · exact Or.inl ⟨hc.mpr ⟨h1, h2⟩, rfl⟩
            · exact hfalse.elim
            · exact Or.inr (Or.inr ⟨h1, h2, h3⟩)
        · simp only [hr, if_false, Bool.false_eq_true, mem_update_pre _ att k,
            mem_invoke_pre _ att k]
          constructor
          · rintro ⟨hca, rfl⟩
            rcases hc.mp hca with ⟨h1, h2⟩
            exact ⟨h1, h2, rfl⟩
          · rintro ⟨h1, h2, rfl⟩
            exact ⟨hc.mpr ⟨h1, h2⟩, rfl⟩

/-- If some recorded attempt fails with an error that is not retryable (or
with no attempts remaining), the whole run propagates exactly that error. -/
theorem error_propagates (op : Nat → Except String α) (o : RetryOptions) :
    ∀ fuel lastErr attempt k m,
      REv.invoke k ∈ (retryLoopF op o fuel lastErr attempt).1 →
      op k = .error m →
      (isRetryableMsg m = false ∨ o.maxRetries ≤ k) →
      (retryLoopF op o fuel lastErr attempt).2 = .error m := by
  intro fuel
  induction fuel with
  | zero => intro le att k m h; simp [retryLoopF] at h
  | succ fuel ih =>
    intro le att k m h hk hcl
    by_cases hg : o.maxRetries < att
    · simp [retryLoopF, hg] at h
    · simp only [retryLoopF, if_neg hg] at h ⊢
      cases hop : op att with
      | ok v =>
        simp only [hop] at h ⊢
        have : k = att := (mem_invoke_pre _ att k).mp h
        subst this
        rw [hop] at hk
        exact Except.noConfusion hk
      | error m' =>
        simp only [hop] at h ⊢
        by_cases hr : (decide (att < o.maxRetries) && isRetryableMsg m') = true
        · simp only [hr, if_true] at h ⊢
          rw [List.mem_append] at h
          rcases h with h | h
          · have : k = att := (mem_invoke_pre _ att k).mp h
            subst this
            rw [hop] at hk
            cases hk
            rcases Bool.and_eq_true_iff.mp hr with ⟨h1, h2⟩
            rcases hcl with hcl | hcl
            · rw [hcl] at h2
              exact Bool.noConfusion h2
            · exact absurd (of_decide_eq_true h1) (by omega)
          · rcases List.mem_cons.mp h with h | h
            · exact absurd h (by simp)
            · exact ih m' (att + 1) k m h hk hcl
        · simp only [hr, if_false, Bool.false_eq_true] at h ⊢
          have : k = att := (mem_invoke_pre _ att k).mp h
          subst this
          rw [hop] at hk
          cases hk
          rfl

/-- A live iteration's trace starts with its own status-update/invoke
prefix. -/
theorem trace_head_shape (op : Nat → Except String α) (o : RetryOptions)
    (fuel : Nat) (lastErr : String) (attempt : Nat)
    (hatt : attempt ≤ o.maxRetries) :
    ∃ t, (retryLoopF op o (fuel + 1) lastErr attempt).1 =
      ((if optTruthy o.pendingEventId && decide (1 < attempt) then
        [REv.updatePending attempt] else []) ++ [REv.invoke attempt]) ++ t := by
  simp only [retryLoopF, if_neg (Nat.not_lt.mpr hatt)]
  cases hop : op attempt with
  | ok v =>
    simp only [hop]
    exact ⟨[], by simp⟩
  | error m =>
    simp only [hop]
    by_cases hr : (decide (attempt < o.maxRetries) && isRetryableMsg m) = true
    · simp only [hr, if_true]
      exact ⟨REv.sleep (min (1000 * 2 ^ (attempt - 1)) o.maxDelay) ::
        (retryLoopF op o fuel m (attempt + 1)).1, by simp⟩
    · simp only [hr, if_false, Bool.false_eq_true]
      exact ⟨[], by simp⟩

/-- Whenever a later attempt `k + 1` is recorded, the trace contains, as a
contiguous run, the backoff sleep for attempt `k`'s failure, then (when a
pending id is configured) the status update for attempt `k + 1`, then the
`k + 1` invocation — in that order. -/
theorem sleep_update_invoke_pattern (op : Nat → Except String α) (o : RetryOptions) :
    ∀ fuel lastErr attempt, 1 ≤ attempt →
      ∀ k, attempt ≤ k →
      REv.invoke (k + 1) ∈ (retryLoopF op o fuel lastErr attempt).1 →
      (REv.sleep (min (1000 * 2 ^ (k - 1)) o.maxDelay) ::
        ((if optTruthy o.pendingEventId then [REv.updatePending (k + 1)] else []) ++
          [REv.invoke (k + 1)])) <:+: (retryLoopF op o fuel lastErr attempt).1 := by
  intro fuel
  induction fuel with
  | zero => intro le att h1 k hk h; simp [retryLoopF] at h
  | succ fuel ih =>
    intro le att h1 k hk h
    by_cases hg : o.maxRetries < att
    · simp [retryLoopF, hg] at h
    · simp only [retryLoopF, if_neg hg] at h ⊢
      cases hop : op att with
      | ok v =>
        simp only [hop] at h
        have := (mem_invoke_pre _ att (k + 1)).mp h
        omega
      | error m =>
        simp only [hop] at h ⊢
        by_cases hr : (decide (att < o.maxRetries) && isRetryableMsg m) = true
        · simp only [hr, if_true] at h ⊢
          rw [List.mem_append] at h
          rcases h with h | h
          · have := (mem_invoke_pre _ att (k + 1)).mp h
            omega
          · rcases List.mem_cons.mp h with h | h
            · exact absurd h (by simp)
            · rcases Nat.eq_or_lt_of_le hk with rfl | hlt
              · cases fuel with
                | zero => simp [retryLoopF] at h
                | succ fuel' =>
                  have hb := invoke_mem_bounds op o (fuel' + 1) m (att + 1) (att + 1) h
                  obtain ⟨t, ht⟩ := trace_head_shape op o fuel' m (att + 1) hb.2
                  have hdec : decide (1 < att + 1) = true := decide_eq_true (by omega)
                  rw [hdec, Bool.and_true] at ht
                  refine ⟨(if optTruthy o.pendingEventId && decide (1 < att) then
                    [REv.updatePending att] else []) ++ [REv.invoke att], t, ?_⟩
                  rw [ht]
                  simp
              · have hpat := ih m (att + 1) (by omega) k (by omega) h
                obtain ⟨s, t, hst⟩ := hpat
                refine ⟨((if optTruthy o.pendingEventId && decide (1 < att) then
                  [REv.updatePending att] else []) ++ [REv.invoke att]) ++
                  [REv.sleep (min (1000 * 2 ^ (att - 1)) o.maxDelay)] ++ s, t, ?_⟩
                rw [← hst]
                simp
        · simp only [hr, if_false, Bool.false_eq_true] at h
          have := (mem_invoke_pre _ att (k + 1)).mp h
          omega

/-! ## Claim C4 — retry exactly when retryable and attempts remain -/

/-- Claim C4: with at least one attempt configured, `withRetry` returns the
operation's value after exactly one attempt — no sleep, no status update —
when the first call succeeds; attempt `k + 1` happens exactly when attempt
`k` happened, failed with a message containing one of `"HTTP 504"`,
`"timeout"`, `"ECONNRESET"`, `"ENOTFOUND"`, and attempts remained
(`k < maxRetries`); and an attempt failing non-retryably (or with no
attempts remaining) makes the run propagate exactly that error. -/
theorem c4_retry_iff_retryable_and_attempts_remain (op : Nat → Except String α)
    (o : RetryOptions) (hmr : 1 ≤ o.maxRetries) :
    (∀ v, op 1 = .ok v → withRetry op o = ([REv.invoke 1], .ok v)) ∧
    (∀ k, 1 ≤ k →
      (REv.invoke (k + 1) ∈ (withRetry op o).1 ↔
        (REv.invoke k ∈ (withRetry op o).1 ∧ k < o.maxRetries ∧
          ∃ m, op k = .error m ∧ isRetryableMsg m = true))) ∧
    (∀ k m, REv.invoke k ∈ (withRetry op o).1 → op k = .error m →
      (isRetryableMsg m = false ∨ o.maxRetries ≤ k) →
      (withRetry op o).2 = .error m) := by
  refine ⟨?_, ?_, ?_⟩
  · intro v hop
    unfold withRetry
    simp only [retryLoopF, if_neg (by omega : ¬ o.maxRetries < 1), hop]
    simp
  · intro k hk
    unfold withRetry
    rw [invoke_mem_iff op o (o.maxRetries + 1) "" 1 (k + 1) (by omega),
      invoke_mem_iff op o (o.maxRetries + 1) "" 1 k (by omega)]
    constructor
    · rintro ⟨h1, h2, h3⟩
      have hP := h3 k (by omega) (by omega)
      exact ⟨⟨by omega, by omega, fun j ha hb => h3 j ha (by omega)⟩, hP.1, hP.2⟩
    · rintro ⟨⟨h1, h2, h3⟩, h4, h5⟩
      refine ⟨by omega, by omega, fun j ha hb => ?_⟩
      rcases Nat.lt_or_ge j k with hj | hj
      · exact h3 j ha hj
      · have : j = k := by omega
        subst this
        exact ⟨h4, h5⟩
  · intro k m h hop hcl
    exact error_propagates op o (o.maxRetries + 1) "" 1 k m h hop hcl

/-- Witness for C4: a first-call success under the default options makes
exactly one attempt with no sleep. -/
theorem c4_retry_iff_retryable_and_attempts_remain_witness :
    1 ≤ ({} : RetryOptions).maxRetries ∧
    withRetry (fun _ => (Except.ok "v" : Except String String)) {} =
      ([REv.invoke 1], .ok "v") :=
  ⟨by decide,
   (c4_retry_iff_retryable_and_attempts_remain
      (fun _ => (Except.ok "v" : Except String String)) {} (by decide)).1 "v" rfl⟩

/-! ## Claim C5 — backoff sleeps precede the status update (corrected) -/

/-- Counterexample to claim C5 as stated: in a concrete run (retryable
failures on attempts 1 and 2, success on attempt 3, a pending event id
configured, defaults otherwise), each pending-status update is recorded
after the backoff sleep finishes, not before the wait begins: the
contiguous pair sleep-then-update occurs, and update-then-sleep occurs
nowhere in the trace. -/
theorem c5_counterexample :
    (withRetry (fun n => if n < 3 then (Except.error "timeout" : Except String String)
        else .ok "done") {pendingEventId := some "p"}).1 =
      [REv.invoke 1, REv.sleep 1000, REv.updatePending 2, REv.invoke 2,
       REv.sleep 2000, REv.updatePending 3, REv.invoke 3] ∧
    ¬ ([REv.updatePending 2, REv.sleep 1000] <:+:
      (withRetry (fun n => if n < 3 then (Except.error "timeout" : Except String String)
        else .ok "done") {pendingEventId := some "p"}).1) ∧
    ([REv.sleep 1000, REv.updatePending 2] <:+:
      (withRetry (fun n => if n < 3 then (Except.error "timeout" : Except String String)
        else .ok "done") {pendingEventId := some "p"}).1) :=
  ⟨rfl, by decide, by decide⟩

/-- Claim C5 as amended: when attempt `k < maxRetries` fails retryably, the
run sleeps `min(1000·2^(k-1), maxDelay)` milliseconds and the progress
update is invoked after that wait, immediately before attempt `k + 1`
begins — so with a configured pending id the update fires exactly before
attempts 2 through the last attempt made, never before attempt 1, and
every attempt number is at most `maxRetries`. -/
theorem c5_backoff_then_update_before_next_attempt (op : Nat → Except String α)
    (o : RetryOptions) (hp : optTruthy o.pendingEventId = true) :
    (∀ k, 1 ≤ k → REv.invoke (k + 1) ∈ (withRetry op o).1 →
      [REv.sleep (min (1000 * 2 ^ (k - 1)) o.maxDelay),
        REv.updatePending (k + 1), REv.invoke (k + 1)] <:+: (withRetry op o).1) ∧
    (∀ k, REv.updatePending k ∈ (withRetry op o).1 ↔
      (2 ≤ k ∧ REv.invoke k ∈ (withRetry op o).1)) ∧
    (∀ k, REv.invoke k ∈ (withRetry op o).1 → 1 ≤ k ∧ k ≤ o.maxRetries) := by
  refine ⟨?_, ?_, ?_⟩
  · intro k hk h
    unfold withRetry at h ⊢
    have hpat := sleep_update_invoke_pattern op o (o.maxRetries + 1) "" 1
      (by omega) k hk h
    simpa [hp] using hpat
  · intro k
    unfold withRetry
    rw [update_mem_iff op o (o.maxRetries + 1) "" 1 k]
    constructor
    · rintro ⟨h1, h2, h3⟩
      exact ⟨by omega, h3⟩
    · rintro ⟨h2, h3⟩
      exact ⟨hp, by omega, h3⟩
  · intro k h
    unfold withRetry at h
    exact invoke_mem_bounds op o (o.maxRetries + 1) "" 1 k h

/-- Witness for C5: a run that fails retryably on attempt 1 and succeeds
on attempt 2 contains the contiguous sleep-update-invoke run for the
second attempt. -/
theorem c5_backoff_then_update_before_next_attempt_witness :
    optTruthy (({pendingEventId := some "p"} : RetryOptions).pendingEventId) = true ∧
    [REv.sleep (min (1000 * 2 ^ (1 - 1))
        (({pendingEventId := some "p"} : RetryOptions).maxDelay)),
      REv.updatePending 2, REv.invoke 2] <:+:
      (withRetry (fun n => if n < 2 then (Except.error "timeout" : Except String String)
        else .ok "done") {pendingEventId := some "p"}).1 :=
  ⟨by decide,
   (c5_backoff_then_update_before_next_attempt
      (fun n => if n < 2 then (Except.error "timeout" : Except String String) else .ok "done")
      {pendingEventId := some "p"} (by decide)).1 1 (by decide) (by decide)⟩

/-! ## Substring lemmas -/

/-- A pattern occurs at the head of any list it prefixes. -/
theorem startsWithSeq_append [DecidableEq α] (pat rest : List α) :
    startsWithSeq (pat ++ rest) pat = true := by
  induction pat with
  | nil => simp [startsWithSeq]
  | cons a pat ih => simp [startsWithSeq, ih]

/-- A pattern at the head is in particular contained. -/
theorem containsSeq_of_startsWithSeq [DecidableEq α] (l pat : List α)
    (h : startsWithSeq l pat = true) : containsSeq l pat = true := by
  cases l with
  | nil => exact h
  | cons a l' => simp [containsSeq, h]

/-! ## Claim C8 — non-2xx handling in the tool invocation bridge (corrected) -/

/-- Counterexample to claim C8 as stated: a non-2xx status other than 504
is not always fatal — a 500 response whose status text happens to contain
`"timeout"` produces the error `"HTTP 500: upstream timeout"`, which the
executor classifies as retryable, so the default run makes three attempts
instead of propagating immediately. -/
theorem c8_counterexample :
    toolCallOnce ⟨500, "upstream timeout", []⟩ =
      Except.error "HTTP 500: upstream timeout" ∧
    isRetryableMsg "HTTP 500: upstream timeout" = true ∧
    (withRetry (fun _ => (Except.error "HTTP 500: upstream timeout" :
        Except String String)) {}).1 =
      [REv.invoke 1, REv.sleep 1000, REv.invoke 2, REv.sleep 2000, REv.invoke 3] :=
  ⟨rfl, by decide, rfl⟩

/-- Claim C8 as amended: a non-2xx response is turned into a thrown error
whose message is exactly `"HTTP <status>: <statusText>"`; a 504 response
is always classified retryable by the executor; any error whose message is
not retryable (which covers every other non-2xx status whose status text
contains no retryable marker) propagates after exactly one attempt; and on
a 2xx response the `result` field of the JSON body is returned
JSON-serialized. -/
theorem c8_tool_response_handling (r : HttpResponse)
    (op : Nat → Except String (Option String)) (o : RetryOptions)
    (hmr : 1 ≤ o.maxRetries) :
    (responseOk r = false →
      toolCallOnce r = .error ("HTTP " ++ natToString r.status ++ ": " ++ r.statusText)) ∧
    (r.status = 504 →
      isRetryableMsg ("HTTP " ++ natToString r.status ++ ": " ++ r.statusText) = true) ∧
    (responseOk r = true → ∀ v, jsonLookup r.bodyFields "result" = some v →
      toolCallOnce r = .ok (some (jsonStringify v))) ∧
    (∀ m, op 1 = .error m → isRetryableMsg m = false →
      withRetry op o = ([REv.invoke 1], .error m)) := by
  refine ⟨fun h => ?_, fun h504 => ?_, fun hok v hv => ?_, fun m hop hm => ?_⟩
  · unfold toolCallOnce
    simp [h]
  · rw [h504]
    have hdata : ("HTTP " ++ natToString 504 ++ ": " ++ r.statusText).data =
        "HTTP 504".data ++ (": ".data ++ r.statusText.data) := by
      rw [String.data_append,
        show ("HTTP " ++ natToString 504 ++ ": ").data = "HTTP 504".data ++ ": ".data
          by decide,
        List.append_assoc]
    unfold isRetryableMsg strIncludes
    rw [hdata, containsSeq_of_startsWithSeq _ _ (startsWithSeq_append _ _)]
    simp
  · unfold toolCallOnce
    simp [hok, hv]
  · unfold withRetry
    simp only [retryLoopF, if_neg (by omega : ¬ o.maxRetries < 1), hop]
    simp [hm]

/-- Witness for C8: the 504 response is converted to the retryable
`"HTTP 504: Gateway Timeout"` error, and the fatal
`"HTTP 500: Internal Server Error"` error propagates after one attempt. -/
theorem c8_tool_response_handling_witness :
    (responseOk ⟨504, "Gateway Timeout", []⟩ = false ∧
      toolCallOnce ⟨504, "Gateway Timeout", []⟩ =
        .error ("HTTP " ++ natToString 504 ++ ": " ++ "Gateway Timeout")) ∧
    isRetryableMsg ("HTTP " ++ natToString 504 ++ ": " ++ "Gateway Timeout") = true ∧
    withRetry (fun _ => (Except.error "HTTP 500: Internal Server Error" :
        Except String (Option String))) {} =
      ([REv.invoke 1], .error "HTTP 500: Internal Server Error") :=
  ⟨⟨by decide,
    (c8_tool_response_handling ⟨504, "Gateway Timeout", []⟩
      (fun _ => (Except.error "HTTP 500: Internal Server Error" :
        Except String (Option String))) {} (by decide)).1 (by decide)⟩,
   (c8_tool_response_handling ⟨504, "Gateway Timeout", []⟩
      (fun _ => (Except.error "HTTP 500: Internal Server Error" :
        Except String (Option String))) {} (by decide)).2.1 (by decide),
   (c8_tool_response_handling ⟨504, "Gateway Timeout", []⟩
      (fun _ => (Except.error "HTTP 500: Internal Server Error" :
        Except String (Option String))) {} (by decide)).2.2.2
      "HTTP 500: Internal Server Error" rfl (by decide)⟩

/-! ## Decimal printing round-trips through `parseInt` -/

/-- Digit characters of values below ten parse as themselves in radix 10. -/
theorem digitValue_digitChar {k : Nat} (h : k < 10) :
    digitValue 10 (digitChar k) = some k := by
  interval_cases k <;> decide

/-- Decimal digit characters are not whitespace, signs, `0x` markers, nor
(for a nonzero digit) the character `'0'`. -/
theorem digitChar_not_special {k : Nat} (h : k < 10) :
    jsWhitespace (digitChar k) = false ∧ digitChar k ≠ '-' ∧ digitChar k ≠ '+' ∧
    digitChar k ≠ 'x' ∧ digitChar k ≠ 'X' ∧ (k ≠ 0 → digitChar k ≠ '0') := by
  interval_cases k <;>
    refine ⟨rfl, by decide, by decide, by decide, by decide, fun h0 => ?_⟩ <;>
    first
    | decide
    | exact absurd rfl h0

/-- Shape of the decimal digit list: a digit head and a digit tail. -/
theorem natDigitsF_shape : ∀ fuel n, n ≤ fuel →
    ∃ k rest, k < 10 ∧ natDigitsF fuel n = digitChar k :: rest ∧
      ∀ c ∈ rest, ∃ j, j < 10 ∧ c = digitChar j := by
  intro fuel
  induction fuel with
  | zero =>
    intro n hn
    have hz : n = 0 := by omega
    subst hz
    exact ⟨0, [], by omega, rfl, by simp⟩
  | succ fuel ih =>
    intro n hn
    by_cases h10 : n < 10
    · exact ⟨n, [], h10, by simp [natDigitsF, h10], by simp⟩
    · have hdiv : n / 10 ≤ fuel := by
        have := Nat.div_lt_self (by omega : 0 < n) (by omega : 1 < 10)
        omega
      obtain ⟨k, rest, hk, heq, hrest⟩ := ih (n / 10) hdiv
      refine ⟨k, rest ++ [digitChar (n % 10)], hk, ?_, ?_⟩
      · simp [natDigitsF, h10, heq]
      · intro c hc
        rcases List.mem_append.mp hc with hc | hc
        · exact hrest c hc
        · have := List.mem_singleton.mp hc
          subst this
          exact ⟨n % 10, Nat.mod_lt _ (by omega), rfl⟩

/-- Every character of the decimal digit list is a digit character. -/
theorem natDigitsF_all_digits (fuel n : Nat) (hn : n ≤ fuel) :
    ∀ c ∈ natDigitsF fuel n, ∃ j, j < 10 ∧ c = digitChar j := by
  obtain ⟨k, rest, hk, heq, hrest⟩ := natDigitsF_shape fuel n hn
  intro c hc
  rw [heq] at hc
  rcases List.mem_cons.mp hc with rfl | hc
  · exact ⟨k, hk, rfl⟩
  · exact hrest c hc

/-- `parseDigits` consumes an all-digit prefix and continues on the rest. -/
theorem parseDigits_append (l1 l2 : List Char) :
    ∀ acc cnt, (∀ c ∈ l1, (digitValue 10 c).isSome) →
    parseDigits 10 (l1 ++ l2) acc cnt =
      parseDigits 10 l2 (parseDigits 10 l1 acc cnt).1 (parseDigits 10 l1 acc cnt).2 := by
  induction l1 with
  | nil => intro acc cnt h; simp [parseDigits]
  | cons c l1 ih =>
    intro acc cnt h
    have hc := h c (by simp)
    rcases ho : digitValue 10 c with _ | d
    · rw [ho] at hc
      exact absurd hc (by simp)
    · simp only [List.cons_append, parseDigits, ho]
      exact ih _ _ (fun c hc => h c (by simp [hc]))

/-- Parsing the decimal digits of `n` yields `n` (with the digit count). -/
theorem parseDigits_natDigitsF : ∀ fuel n, n ≤ fuel → ∀ acc cnt,
    parseDigits 10 (natDigitsF fuel n) acc cnt =
      (acc * 10 ^ (natDigitsF fuel n).length + n, cnt + (natDigitsF fuel n).length) := by
  intro fuel
  induction fuel with
  | zero =>
    intro n hn acc cnt
    have hz : n = 0 := by omega
    subst hz
    simp [natDigitsF, parseDigits, digitChar, digitValue, charVal]
  | succ fuel ih =>
    intro n hn acc cnt
    by_cases h10 : n < 10
    · simp only [natDigitsF, if_pos h10]
      simp [parseDigits, digitValue_digitChar h10]
    · have hdiv : n / 10 ≤ fuel := by
        have := Nat.div_lt_self (by omega : 0 < n) (by omega : 1 < 10)
        omega
      simp only [natDigitsF, if_neg h10]
      rw [parseDigits_append _ _ acc cnt (fun c hc => by
        obtain ⟨j, hj, rfl⟩ := natDigitsF_all_digits fuel (n / 10) hdiv c hc
        simp [digitValue_digitChar hj])]
      rw [ih (n / 10) hdiv acc cnt]
      simp only [parseDigits, digitValue_digitChar (Nat.mod_lt n (by omega) : n % 10 < 10),
        List.length_append, List.length_singleton]
      refine Prod.ext ?_ (by omega)
      show (acc * 10 ^ (natDigitsF fuel (n / 10)).length + n / 10) * 10 + n % 10 =
        acc * 10 ^ ((natDigitsF fuel (n / 10)).length + 1) + n
      rw [pow_succ]
      have := Nat.div_add_mod n 10
      ring_nf
      omega

/-- The JS decimal representation of a natural number is nonempty, hence
truthy. -/
theorem natToString_truthy (n : Nat) : jsTruthy (natToString n) = true := by
  obtain ⟨k, rest, hk, heq, hrest⟩ := natDigitsF_shape n n (le_refl n)
  unfold natToString natDigits jsTruthy
  rw [heq]
  have hne : String.mk (digitChar k :: rest) ≠ "" := by
    intro h
    exact List.noConfusion (congrArg String.data h)
  simp [hne]

/-- Round-trip: `parseInt` of the JS decimal representation of a
nonnegative integer is that integer. -/
theorem parseIntJs_natToString (n : Nat) : parseIntJs (natToString n) = some n := by
  obtain ⟨k, rest, hk, heq, hrest⟩ := natDigitsF_shape n n (le_refl n)
  obtain ⟨hws, hminus, hplus, hx, hX, h0⟩ := digitChar_not_special hk
  unfold parseIntJs natToString natDigits
  rw [show (String.mk (natDigitsF n n)).data = natDigitsF n n from rfl, heq,
    List.dropWhile_cons]
  simp only [hws, Bool.false_eq_true, if_false, List.headD_cons,
    decide_eq_false hminus, decide_eq_false hplus, Bool.or_self, Bool.false_or,
    if_false, List.tail_cons]
  have hhex : (decide (digitChar k = '0') &&
      (decide (rest.headD ' ' = 'x') || decide (rest.headD ' ' = 'X'))) = false := by
    by_cases hk0 : k = 0
    · subst hk0
      cases rest with
      | nil => decide
      | cons c rest' =>
        obtain ⟨j, hj, rfl⟩ := hrest c (by simp)
        obtain ⟨_, _, _, hx', hX', _⟩ := digitChar_not_special hj
        simp [decide_eq_false hx', decide_eq_false hX']
    · simp [decide_eq_false (h0 hk0)]
  rw [hhex]
  simp only [Bool.false_eq_true, if_false]
  rw [show (digitChar k :: rest) = natDigitsF n n from heq.symm,
    parseDigits_natDigitsF n n (le_refl n) 0 0]
  have hlen : (natDigitsF n n).length ≠ 0 := by
    rw [heq]
    simp
  simp [hlen, hminus]

/-! ## Digest byte bounds and reconstruction -/

/-- Word serialization produces bytes. -/
theorem toBytes4_bound (x b : Nat) (hb : b ∈ toBytes4 x) : b < 256 := by
  simp [toBytes4] at hb
  rcases hb with rfl | rfl | rfl | rfl <;> omega

/-- Hash-state serialization produces bytes. -/
theorem hashBytes_bound (H : Hash8) (b : Nat) (hb : b ∈ hashBytes H) : b < 256 := by
  simp only [hashBytes, List.mem_append] at hb
  rcases hb with (((((((hb | hb) | hb) | hb) | hb) | hb) | hb) | hb) <;>
    exact toBytes4_bound _ _ hb

/-- SHA-256 digests are byte lists. -/
theorem sha256_bound (msg : List Nat) (b : Nat) (hb : b ∈ sha256 msg) : b < 256 :=
  hashBytes_bound _ _ hb

/-- HMAC-SHA-256 digests are byte lists. -/
theorem hmacSha256_bound (key msg : List Nat) (b : Nat)
    (hb : b ∈ hmacSha256 key msg) : b < 256 :=
  sha256_bound _ _ hb

/-- Defaulted indexing into a byte list stays below 256. -/
theorem getD_lt (l : List Nat) (h : ∀ b ∈ l, b < 256) (i : Nat) :
    l.getD i 0 < 256 := by
  rw [List.getD_eq_getElem?_getD]
  rcases hi : l[i]? with _ | b
  · simp
  · simpa using h b (List.getElem?_mem hi)

/-- Two 32-byte lists with equal defaulted entries are equal. -/
theorem eq_of_getD_eq (l1 l2 : List Nat) (h1 : l1.length = 32)
    (h2 : l2.length = 32) (h : ∀ i : Fin 32, l1.getD i 0 = l2.getD i 0) :
    l1 = l2 := by
  apply List.ext_getElem (by omega)
  intro i hi1 hi2
  have hi := h ⟨i, by omega⟩
  rw [List.getD_eq_getElem?_getD, List.getD_eq_getElem?_getD,
    List.getElem?_eq_getElem hi1, List.getElem?_eq_getElem hi2] at hi
  simpa using hi

/-! ## Claim C2 — end-to-end signing against the inbound gate (corrected) -/

/-- Claim C2 as amended: for every body, in-window timestamp, nonempty
application secret `S`, event id, and endpoint identifiers: a request
signed with the key derived for `toolA` is accepted by the gate whose own
block id is `toolA` (the recomputed signature equals the supplied one);
and the otherwise identical gate whose block id is `toolB` rejects it as a
signature mismatch whenever the signature recomputed under the
`toolB`-derived key differs from the supplied one — the only case
HMAC-SHA-256 collision-resistance leaves computationally findable. -/
theorem c2_end_to_end_signature {π : Type} (body S toolA toolB eventId requestId : String)
    (parameters : π) (ts : Nat) (now : Int)
    (hS : jsTruthy S = true) (hev : jsTruthy eventId = true)
    (hfresh : (now - (ts : Int)).natAbs ≤ 300) :
    onRequest (some S) toolA now requestId eventId parameters (some eventId)
      (some (natToString ts)) (some (signedToolRequestSig body ts toolA S)) body =
      GateResult.emit requestId parameters eventId ∧
    (signedToolRequestSig body ts toolB S ≠ signedToolRequestSig body ts toolA S →
      onRequest (some S) toolB now requestId eventId parameters (some eventId)
        (some (natToString ts)) (some (signedToolRequestSig body ts toolA S)) body =
        GateResult.respond 401 "Invalid request signature") := by
  have hstale : staleTimestamp now (natToString ts) = false := by
    unfold staleTimestamp
    rw [parseIntJs_natToString ts]
    exact decide_eq_false (by omega)
  constructor
  · unfold onRequest signedToolRequestSig signRequest
    simp [hS, hev, natToString_truthy, hmacSha256Hex_truthy, hstale]
  · intro hne
    unfold signedToolRequestSig signRequest at hne
    unfold onRequest signedToolRequestSig signRequest
    simp [hS, hev, natToString_truthy, hmacSha256Hex_truthy, hstale, hne.symm]

/-- Witness for C2: the spec's own concrete scenario — secret `"S"`,
identifiers `"tool-A"` and `"tool-B"` — where the two derived signatures
indeed differ, so the matching gate accepts and the mismatched gate
rejects. -/
theorem c2_end_to_end_signature_witness :
    (jsTruthy "S" = true ∧ jsTruthy "e" = true ∧
      ((0 : Int) - ((0 : Nat) : Int)).natAbs ≤ 300 ∧
      signedToolRequestSig "b" 0 "tool-B" "S" ≠ signedToolRequestSig "b" 0 "tool-A" "S") ∧
    onRequest (some "S") "tool-A" 0 "r" "e" (0 : Nat) (some "e") (some (natToString 0))
      (some (signedToolRequestSig "b" 0 "tool-A" "S")) "b" =
      GateResult.emit "r" (0 : Nat) "e" ∧
    onRequest (some "S") "tool-B" 0 "r" "e" (0 : Nat) (some "e") (some (natToString 0))
      (some (signedToolRequestSig "b" 0 "tool-A" "S")) "b" =
      GateResult.respond 401 "Invalid request signature" := by
  have hsig : signedToolRequestSig "b" 0 "tool-B" "S" ≠
      signedToolRequestSig "b" 0 "tool-A" "S" := by
    set_option maxRecDepth 1000000 in decide
  have h := c2_end_to_end_signature (π := Nat) "b" "S" "tool-A" "tool-B" "e" "r"
    (0 : Nat) 0 0 (by decide) (by decide) (by decide)
  exact ⟨⟨by decide, by decide, by decide, hsig⟩, h.1, h.2 hsig⟩

/-- Counterexample to claim C2 as stated: the rejection half cannot hold
for every pair of distinct endpoint identifiers — the per-endpoint key
derivation maps the infinitely many identifiers into the finite space of
32-byte digests, so two distinct identifiers share a derived key
(pigeonhole), and the gate configured with the second identifier accepts a
request signed for the first instead of rejecting it. -/
theorem c2_counterexample :
    ¬ (∀ (body S toolA toolB eventId requestId : String) (parameters : Nat)
        (ts : Nat) (now : Int),
      jsTruthy S = true → jsTruthy eventId = true →
      (now - (ts : Int)).natAbs ≤ 300 → toolA ≠ toolB →
      onRequest (some S) toolB now requestId eventId parameters (some eventId)
        (some (natToString ts)) (some (signedToolRequestSig body ts toolA S)) body =
        GateResult.respond 401 "Invalid request signature") := by
  intro H
  obtain ⟨m, n, hmn, hgeq⟩ := Finite.exists_ne_map_eq_of_infinite
    (fun k (i : Fin 32) =>
      (⟨(hmacSha256 (strBytes "S") (strBytes (String.mk (List.replicate k 'a')))).getD i 0,
        getD_lt _ (fun b hb => hmacSha256_bound _ _ b hb) i⟩ : Fin 256))
  have hdig : hmacSha256 (strBytes "S") (strBytes (String.mk (List.replicate m 'a'))) =
      hmacSha256 (strBytes "S") (strBytes (String.mk (List.replicate n 'a'))) := by
    apply eq_of_getD_eq _ _ (hmacSha256_length _ _) (hmacSha256_length _ _)
    intro i
    exact congrArg Fin.val (congrFun hgeq i)
  have hkey : generateFlowSecret (String.mk (List.replicate m 'a')) "S" =
      generateFlowSecret (String.mk (List.replicate n 'a')) "S" := by
    unfold generateFlowSecret hmacSha256Hex
    exact congrArg hexEncode hdig
  have hids : String.mk (List.replicate m 'a') ≠ String.mk (List.replicate n 'a') := by
    intro h
    have hlen := congrArg List.length (congrArg String.data h)
    simp at hlen
    exact hmn hlen
  have hrej := H "b" "S" (String.mk (List.replicate m 'a'))
    (String.mk (List.replicate n 'a')) "e" "r" 0 0 0
    (by decide) (by decide) (by decide) hids
  have hacc : onRequest (some "S") (String.mk (List.replicate n 'a')) 0 "r" "e"
      (0 : Nat) (some "e") (some (natToString 0))
      (some (signedToolRequestSig "b" 0 (String.mk (List.replicate m 'a')) "S")) "b" =
      GateResult.emit "r" (0 : Nat) "e" := by
    have hstale : staleTimestamp 0 (natToString 0) = false := by decide
    have h1 : jsTruthy "S" = true := by decide
    have h2 : jsTruthy "e" = true := by decide
    unfold onRequest signedToolRequestSig signRequest
    rw [hkey]
    simp [h1, h2, natToString_truthy, hmacSha256Hex_truthy, hstale]
  rw [hrej] at hacc
  exact GateResult.noConfusion hacc

end OpenRouterApp
